import Mathlib

/-!
Shallow embedding of the zp-cache policy engines.

Source files modelled here:
  src/ZPLfuCache.h               (`ZPLfuCache`, `FreqList`)
  src/zp-arcCache/ZPArcCacheNode.h (`ArcNode`)
  src/zp-arcCache/ZPArcLruPart.h   (`ArcLruPart`)
  src/zp-arcCache/ZPArcLfuPart.h   (`ArcLfuPart`)
  src/zp-arcCache/ZPArcCache.h     (`ZPArcCache`)

Modelling conventions:
  - Keys and values are `Nat` (both are opaque type parameters in the source).
  - `std::unordered_map` is modelled as an association list in insertion
    order: a new key is appended at the end, `operator[]` on a present key
    replaces in place, `erase` removes the single entry with that key.
    Iteration order of `std::unordered_map` is unspecified by the C++
    standard; the insertion-order association list realises one legal
    behaviour and is used wherever the source iterates a map or reads
    `begin()`.
  - An intrusive doubly linked list is modelled as the list of the keys of
    its nodes; pointer unlinking of a node becomes removal of its key at
    the corresponding position. The head/tail sentinels are implicit.
  - `int` / `size_t` counters are modelled as `Nat`: every counter in the
    source is non-negative in all reachable states, and the only
    subtractions performed (`curTotalNum_ -= freq`, `freq -= maxAverageNum_/2`
    followed by a clamp to 1) agree with truncated `Nat` subtraction there.
  - `std::mutex` only serialises public operations and has no sequential
    effect, so it is not modelled.
  - Where the source flows off the end of a non-void function (a missing
    `return`), the result is undefined behaviour in C++; the model makes
    that visible with an `Option` result (`none` = no defined return value)
    while still tracking the state mutations performed before the fall-off.
-/

/-- Lookup in an association list modelling `unordered_map::find`. -/
def findEntry {α : Type} (k : Nat) : List (Nat × α) → Option α
  | [] => none
  | (k', v) :: rest => if k = k' then some v else findEntry k rest

/-- Insert-or-overwrite modelling `map[key] = value`: replace in place when
the key is present, append at the end otherwise. -/
def setEntry {α : Type} (k : Nat) (v : α) : List (Nat × α) → List (Nat × α)
  | [] => [(k, v)]
  | (k', v') :: rest => if k = k' then (k, v) :: rest else (k', v') :: setEntry k v rest

/-- Erase-by-key modelling `map.erase(key)`: removes the entry with this key
(at most one exists in a map). -/
def eraseEntry {α : Type} (k : Nat) : List (Nat × α) → List (Nat × α)
  | [] => []
  | (k', v') :: rest => if k = k' then rest else (k', v') :: eraseEntry k rest

/-- Remove the first occurrence of a key from a key list (unlinking one
node of an intrusive list). -/
def removeFirst (k : Nat) : List Nat → List Nat
  | [] => []
  | x :: rest => if x = k then rest else x :: removeFirst k rest

/-- Remove the last occurrence of a key from a key list (unlinking the most
recently appended node carrying this key). -/
def eraseFromEnd (k : Nat) (l : List Nat) : List Nat :=
  (removeFirst k l.reverse).reverse

namespace ZPLfuCache

/-- Data carried by `FreqList<Key, Value>::Node`: the access frequency and the
stored value (the key is the map key pointing at the node). -/
structure Node where
  freq : Nat
  value : Nat
deriving DecidableEq, Repr

/-- State of `ZPLfuCache`. Each `FreqList` bucket is the list of the keys of
its nodes, oldest at the head (`addNode` appends at the tail and
`getFirstNode` reads the head). `freqToFreqList_` keeps buckets in creation
order; an emptied bucket object stays in the map (the source never deletes
them outside `purge`). -/
structure State where
  capacity_ : Nat
  minFreq_ : Nat
  maxAverageNum_ : Nat
  curAverageNum_ : Nat
  curTotalNum_ : Nat
  nodeMap_ : List (Nat × Node)
  freqToFreqList_ : List (Nat × List Nat)
deriving DecidableEq, Repr

/-- Value of `INT8_MAX`, the sentinel the constructor stores in `minFreq_`. -/
def int8Max : Nat := 127

/-- Constructor `ZPLfuCache(capacity, maxAverageNum)`. -/
def init (capacity maxAverageNum : Nat) : State :=
  ⟨capacity, int8Max, maxAverageNum, 0, 0, [], []⟩

/-- Method `removeFromFreqList(node)`: unlink the node from the bucket at its
frequency. When that bucket is absent the source would dereference the null
pointer `operator[]` just created (undefined behaviour, unreachable while the
bucket-membership invariant holds); the model leaves the state unchanged
there. -/
def removeFromFreqList (s : State) (k freq : Nat) : State :=
  match findEntry freq s.freqToFreqList_ with
  | none => s
  | some b => { s with freqToFreqList_ := setEntry freq (removeFirst k b) s.freqToFreqList_ }

/-- Method `addToFreqList(node)`: create the bucket if absent, then append the
node at its tail. -/
def addToFreqList (s : State) (k freq : Nat) : State :=
  match findEntry freq s.freqToFreqList_ with
  | none => { s with freqToFreqList_ := s.freqToFreqList_ ++ [(freq, [k])] }
  | some b => { s with freqToFreqList_ := setEntry freq (b ++ [k]) s.freqToFreqList_ }

/-- Method `updateMinFreq()`: start from `INT8_MAX`, take the minimum over the
keys of non-empty buckets, and fall back to 1 when the result is still the
sentinel. -/
def updateMinFreq (s : State) : State :=
  let m := s.freqToFreqList_.foldl (fun acc p => if p.2 ≠ [] then min acc p.1 else acc) int8Max
  { s with minFreq_ := if m = int8Max then 1 else m }

/-- Body of the per-node loop of `handleOverMaxAverageNum()`: remove the node
from its bucket, decrease its frequency by `maxAverageNum_ / 2` clamping at 1,
and append it to the target bucket. The `none` branch mirrors the null-node
`continue`. -/
def agingStep (s : State) (k : Nat) : State :=
  match findEntry k s.nodeMap_ with
  | none => s
  | some nd =>
    let s1 := removeFromFreqList s k nd.freq
    let f1 := nd.freq - s.maxAverageNum_ / 2
    let f2 := if f1 < 1 then 1 else f1
    let s2 := { s1 with nodeMap_ := setEntry k { nd with freq := f2 } s1.nodeMap_ }
    addToFreqList s2 k f2

/-- Method `handleOverMaxAverageNum()`: age every node of `nodeMap_` (the loop
iterates the map; the model folds over its key list), then recompute
`minFreq_`. `curTotalNum_` is not touched. -/
def handleOverMaxAverageNum (s : State) : State :=
  if s.nodeMap_ = [] then s
  else updateMinFreq ((s.nodeMap_.map Prod.fst).foldl agingStep s)

/-- Method `addFreqNum()`: bump the total access count, recompute the average,
and run aging when the average exceeds `maxAverageNum_`. -/
def addFreqNum (s : State) : State :=
  let total := s.curTotalNum_ + 1
  let avg := if s.nodeMap_ = [] then 0 else total / s.nodeMap_.length
  let s1 := { s with curTotalNum_ := total, curAverageNum_ := avg }
  if avg > s.maxAverageNum_ then handleOverMaxAverageNum s1 else s1

/-- Method `decreaseFreqNum(num)`: subtract from the total access count and
recompute the average. -/
def decreaseFreqNum (s : State) (num : Nat) : State :=
  let total := s.curTotalNum_ - num
  let avg := if s.nodeMap_ = [] then 0 else total / s.nodeMap_.length
  { s with curTotalNum_ := total, curAverageNum_ := avg }

/-- Method `getInternal(node, value)`: move the node one bucket up, bump
`minFreq_` when its old bucket was the minimum bucket and just emptied, then
account the access. Returns the value read from the node. The source only
calls this with a node of the map, so the `none` branch is unreachable. -/
def getInternal (s : State) (k : Nat) : Nat × State :=
  match findEntry k s.nodeMap_ with
  | none => (0, s)
  | some nd =>
    let v := nd.value
    let s1 := removeFromFreqList s k nd.freq
    let newFreq := nd.freq + 1
    let s2 := { s1 with nodeMap_ := setEntry k { nd with freq := newFreq } s1.nodeMap_ }
    let s3 := addToFreqList s2 k newFreq
    let s4 :=
      if newFreq - 1 = s3.minFreq_ ∧ (findEntry (newFreq - 1) s3.freqToFreqList_).getD [] = [] then
        { s3 with minFreq_ := s3.minFreq_ + 1 }
      else s3
    (v, addFreqNum s4)

/-- Method `kickOut()`: evict the head node of the bucket at `minFreq_`. The
guard branches mirror the source paths that only touch the list sentinels
(an absent or empty minimum bucket, where `getFirstNode` returns the tail
sentinel whose unlink is a no-op and whose key is indeterminate): no real
entry is removed there. -/
def kickOut (s : State) : State :=
  match findEntry s.minFreq_ s.freqToFreqList_ with
  | none => s
  | some [] => s
  | some (h :: _) =>
    match findEntry h s.nodeMap_ with
    | none => s
    | some nd =>
      let s1 := removeFromFreqList s h nd.freq
      let s2 := { s1 with nodeMap_ := eraseEntry h s1.nodeMap_ }
      decreaseFreqNum s2 nd.freq

/-- Method `putInternal(key, value)`: evict when full, insert the new node
with frequency 1, account the access, lower `minFreq_` to 1. -/
def putInternal (s : State) (k v : Nat) : State :=
  let s1 := if s.nodeMap_.length = s.capacity_ then kickOut s else s
  let s2 := { s1 with nodeMap_ := s1.nodeMap_ ++ [(k, ⟨1, v⟩)] }
  let s3 := addToFreqList s2 k 1
  let s4 := addFreqNum s3
  { s4 with minFreq_ := min s4.minFreq_ 1 }

/-- Method `put(key, value)`: reject when capacity is 0; overwrite the value
and treat the write as an access when the key exists; insert otherwise. -/
def put (s : State) (k v : Nat) : State :=
  if s.capacity_ = 0 then s
  else
    match findEntry k s.nodeMap_ with
    | some nd =>
      let s1 := { s with nodeMap_ := setEntry k { nd with value := v } s.nodeMap_ }
      (getInternal s1 k).2
    | none => putInternal s k v

/-- Method `bool get(key, value&)`: hit updates policy state and yields the
stored value; a miss leaves the state unchanged (the out-parameter is
untouched; the model returns 0 in that slot). -/
def get (s : State) (k : Nat) : Bool × Nat × State :=
  match findEntry k s.nodeMap_ with
  | some _ =>
    let r := getInternal s k
    (true, r.1, r.2)
  | none => (false, 0, s)

/-- Method `purge()`: clear `nodeMap_` and `freqToFreqList_` and nothing
else. -/
def purge (s : State) : State :=
  { s with nodeMap_ := [], freqToFreqList_ := [] }

/-- A host-driven public operation of `ZPLfuCache`. -/
inductive Op where
  | put : Nat → Nat → Op
  | get : Nat → Op

/-- Execute one public operation. -/
def step (s : State) : Op → State
  | Op.put k v => put s k v
  | Op.get k => (get s k).2.2

/-- Execute a sequence of public operations. -/
def run (s : State) (ops : List Op) : State := ops.foldl step s

end ZPLfuCache

/-- Data carried by `ArcNode<Key, Value>` (src/zp-arcCache/ZPArcCacheNode.h):
the stored value and the access count (the key is the map key; the list links
are implicit in the list model). A fresh node has `accessCount_ = 1`. -/
structure ArcNode where
  value : Nat
  accessCount : Nat
deriving DecidableEq, Repr

namespace ArcLruPart

/-- State of `ArcLruPart`. `mainList_` holds the main-cache keys, most
recently used at the head (`mainHead_` side); `ghostList_` holds the ghost
keys, most recently added at the head. `ghostCache_` is the key set of the
ghost map (`addToGhost` overwrites the map entry of an already-present
key). -/
structure State where
  capacity_ : Nat
  ghostCapacity_ : Nat
  transformThreshold_ : Nat
  mainCache_ : List (Nat × ArcNode)
  ghostCache_ : List Nat
  mainList_ : List Nat
  ghostList_ : List Nat
deriving DecidableEq, Repr

/-- Constructor `ArcLruPart(capacity, transformThreshold)`: ghost capacity is
fixed at the initial capacity. -/
def init (capacity transformThreshold : Nat) : State :=
  ⟨capacity, capacity, transformThreshold, [], [], [], []⟩

/-- Method `addToFront(node)`. -/
def addToFront (s : State) (k : Nat) : State :=
  { s with mainList_ := k :: s.mainList_ }

/-- Method `moveToFront(node)`: unlink from the current position (a no-op for
an unlinked node) and re-insert at the head. -/
def moveToFront (s : State) (k : Nat) : State :=
  addToFront { s with mainList_ := removeFirst k s.mainList_ } k

/-- Method `addToGhost(node)`: reset of the node's access count is invisible
in the key model (ghost counters are never read). The node is linked at the
head of the ghost list and the ghost map entry for its key is created or
overwritten. -/
def addToGhost (s : State) (k : Nat) : State :=
  { s with ghostList_ := k :: s.ghostList_,
           ghostCache_ := if k ∈ s.ghostCache_ then s.ghostCache_ else s.ghostCache_ ++ [k] }

/-- Method `removeOldestGhost()`: unlink the node before the ghost tail
sentinel and erase its key from the ghost map (no-op when the ghost list is
empty). -/
def removeOldestGhost (s : State) : State :=
  match s.ghostList_.getLast? with
  | none => s
  | some g => { s with ghostList_ := s.ghostList_.dropLast,
                       ghostCache_ := removeFirst g s.ghostCache_ }

/-- Method `evicitLeastRecent()` (source spelling): move the least recently
used main node to the ghost side, making room in the ghost first when its map
is full, then erase the key from the main map. -/
def evicitLeastRecent (s : State) : State :=
  match s.mainList_.getLast? with
  | none => s
  | some leastRecent =>
    let s1 := { s with mainList_ := s.mainList_.dropLast }
    let s2 := if s1.ghostCache_.length ≥ s1.ghostCapacity_ then removeOldestGhost s1 else s1
    let s3 := addToGhost s2 leastRecent
    { s3 with mainCache_ := eraseEntry leastRecent s3.mainCache_ }

/-- Method `updateExistingNode(node, value)`: overwrite the value and move to
the front. -/
def updateExistingNode (s : State) (k : Nat) (nd : ArcNode) (v : Nat) : State :=
  moveToFront { s with mainCache_ := setEntry k { nd with value := v } s.mainCache_ } k

/-- Method `addNewNode(key, value)`: evict when at (or beyond) capacity, then
insert the fresh node at the front. -/
def addNewNode (s : State) (k v : Nat) : State :=
  let s1 := if s.mainCache_.length ≥ s.capacity_ then evicitLeastRecent s else s
  { s1 with mainCache_ := s1.mainCache_ ++ [(k, ⟨v, 1⟩)], mainList_ := k :: s1.mainList_ }

/-- Method `put(key, value)`. -/
def put (s : State) (k v : Nat) : Bool × State :=
  if s.capacity_ = 0 then (false, s)
  else
    match findEntry k s.mainCache_ with
    | some nd => (true, updateExistingNode s k nd v)
    | none => (true, addNewNode s k v)

/-- Method `updateNodeAccess(node)`: move to the front, increment the access
count, and report whether the count reached `transformThreshold_`. -/
def updateNodeAccess (s : State) (k : Nat) (nd : ArcNode) : Bool × State :=
  let s1 := moveToFront s k
  let newCount := nd.accessCount + 1
  let s2 := { s1 with mainCache_ := setEntry k { nd with accessCount := newCount } s1.mainCache_ }
  (decide (newCount ≥ s.transformThreshold_), s2)

/-- Method `bool get(key, value&, shouldTransform&)`: result is
(hit, value, shouldTransform, state). -/
def get (s : State) (k : Nat) : Bool × Nat × Bool × State :=
  match findEntry k s.mainCache_ with
  | some nd =>
    let r := updateNodeAccess s k nd
    (true, nd.value, r.1, r.2)
  | none => (false, 0, false, s)

/-- Method `checkGhost(key)`: on a ghost hit, unlink the node the ghost map
points at (the most recent insertion for this key, nearest the list head) and
erase the map entry. -/
def checkGhost (s : State) (k : Nat) : Bool × State :=
  if k ∈ s.ghostCache_ then
    (true, { s with ghostList_ := removeFirst k s.ghostList_,
                    ghostCache_ := removeFirst k s.ghostCache_ })
  else (false, s)

/-- Method `increasCapacity()` (source spelling). -/
def increasCapacity (s : State) : State :=
  { s with capacity_ := s.capacity_ + 1 }

/-- Method `decreaseCapacity()`: fails at capacity 0, otherwise evicts first
when the main cache is exactly full and then decrements. -/
def decreaseCapacity (s : State) : Bool × State :=
  if s.capacity_ = 0 then (false, s)
  else
    let s1 := if s.mainCache_.length = s.capacity_ then evicitLeastRecent s else s
    (true, { s1 with capacity_ := s1.capacity_ - 1 })

/-- A host-driven public operation of the LRU part. -/
inductive Op where
  | put : Nat → Nat → Op
  | get : Nat → Op

/-- Execute one public operation. -/
def stepOp (s : State) : Op → State
  | Op.put k v => (put s k v).2
  | Op.get k => (get s k).2.2.2

/-- Execute a sequence of public operations. -/
def runOps (s : State) (ops : List Op) : State := ops.foldl stepOp s

end ArcLruPart

namespace ArcLfuPart

/-- State of `ArcLfuPart`. `freqMap_` maps each frequency to the list of keys
in its `std::list` bucket, oldest at the head (`push_back` appends,
`pop_front` removes the head). `ghostList_` holds ghost keys oldest at the
head (`ghostHead_` side): `addToGhost` appends before the tail sentinel and
`removeOldestGhost` removes just after the head sentinel. -/
structure State where
  capacity_ : Nat
  ghostCapacity_ : Nat
  transformThreshold_ : Nat
  minFreq_ : Nat
  mainCache_ : List (Nat × ArcNode)
  ghostCache_ : List Nat
  freqMap_ : List (Nat × List Nat)
  ghostList_ : List Nat
deriving DecidableEq, Repr

/-- Constructor `ArcLfuPart(capacity, transformThreshold)`: `minFreq_` starts
at 0, ghost capacity is fixed at the initial capacity. -/
def init (capacity transformThreshold : Nat) : State :=
  ⟨capacity, capacity, transformThreshold, 0, [], [], [], []⟩

/-- Method `contain(key)`. -/
def contain (s : State) (k : Nat) : Bool :=
  (findEntry k s.mainCache_).isSome

/-- Method `addToGhost(node)`: link before the ghost tail sentinel and create
or overwrite the ghost map entry for the key. -/
def addToGhost (s : State) (k : Nat) : State :=
  { s with ghostList_ := s.ghostList_ ++ [k],
           ghostCache_ := if k ∈ s.ghostCache_ then s.ghostCache_ else s.ghostCache_ ++ [k] }

/-- Method `removeOldestGhost()`: unlink the node after the ghost head
sentinel and erase its key from the ghost map. -/
def removeOldestGhost (s : State) : State :=
  match s.ghostList_ with
  | [] => s
  | g :: rest => { s with ghostList_ := rest, ghostCache_ := removeFirst g s.ghostCache_ }

/-- Method `checkGhost(key)`: on a hit, unlink the node the ghost map points
at (the most recently appended occurrence of this key) and erase the map
entry. -/
def checkGhost (s : State) (k : Nat) : Bool × State :=
  if k ∈ s.ghostCache_ then
    (true, { s with ghostList_ := eraseFromEnd k s.ghostList_,
                    ghostCache_ := removeFirst k s.ghostCache_ })
  else (false, s)

/-- Method `updateNodeFrequency(node)`: move the node from its old frequency
bucket to the next one. `freqMap_[oldFreq]` creates an empty bucket when the
key is absent; `std::list::remove` erases every occurrence of the node; an
emptied old bucket is erased from the map, and `minFreq_` is advanced to the
new frequency when the old frequency was the minimum. -/
def updateNodeFrequency (s : State) (k : Nat) : State :=
  match findEntry k s.mainCache_ with
  | none => s
  | some nd =>
    let oldFreq := nd.accessCount
    let newFreq := oldFreq + 1
    let mc := setEntry k { nd with accessCount := newFreq } s.mainCache_
    let fm0 :=
      match findEntry oldFreq s.freqMap_ with
      | none => s.freqMap_ ++ [(oldFreq, [])]
      | some _ => s.freqMap_
    let oldList := ((findEntry oldFreq fm0).getD []).filter (fun x => x ≠ k)
    let fm1 := if oldList = [] then eraseEntry oldFreq fm0 else setEntry oldFreq oldList fm0
    let mf1 := if oldList = [] ∧ oldFreq = s.minFreq_ then newFreq else s.minFreq_
    let fm2 :=
      match findEntry newFreq fm1 with
      | none => fm1 ++ [(newFreq, [k])]
      | some b => setEntry newFreq (b ++ [k]) fm1
    { s with mainCache_ := mc, freqMap_ := fm2, minFreq_ := mf1 }

/-- Method `evictLeastFrequent()`: pop the head of the bucket at `minFreq_`
(`freqMap_[minFreq_]` creates an empty bucket when absent, and an empty bucket
aborts the eviction), erase the bucket when emptied and reset `minFreq_` to
`freqMap_.begin()->first` — the first key in the insertion-order model — then
move the node to the ghost side and erase it from the main map. -/
def evictLeastFrequent (s : State) : State :=
  if s.freqMap_ = [] then s
  else
    let fm0 :=
      match findEntry s.minFreq_ s.freqMap_ with
      | none => s.freqMap_ ++ [(s.minFreq_, [])]
      | some _ => s.freqMap_
    match (findEntry s.minFreq_ fm0).getD [] with
    | [] => { s with freqMap_ := fm0 }
    | leastKey :: restList =>
      let fm1 := if restList = [] then eraseEntry s.minFreq_ fm0
                 else setEntry s.minFreq_ restList fm0
      let mf1 := if restList = [] then
                   match fm1 with
                   | [] => s.minFreq_
                   | (f, _) :: _ => f
                 else s.minFreq_
      let s1 := { s with freqMap_ := fm1, minFreq_ := mf1 }
      let s2 := if s1.ghostCache_.length ≥ s1.ghostCapacity_ then removeOldestGhost s1 else s1
      let s3 := addToGhost s2 leastKey
      { s3 with mainCache_ := eraseEntry leastKey s3.mainCache_ }

/-- Method `addNewNode(key, value)`: evict when at (or beyond) capacity, then
insert the fresh node into the frequency-1 bucket and set `minFreq_ = 1`. -/
def addNewNode (s : State) (k v : Nat) : State :=
  let s1 := if s.mainCache_.length ≥ s.capacity_ then evictLeastFrequent s else s
  let s2 := { s1 with mainCache_ := s1.mainCache_ ++ [(k, (⟨v, 1⟩ : ArcNode))] }
  let fm :=
    match findEntry 1 s2.freqMap_ with
    | none => s2.freqMap_ ++ [(1, [k])]
    | some b => setEntry 1 (b ++ [k]) s2.freqMap_
  { s2 with freqMap_ := fm, minFreq_ := 1 }

/-- Method `updateExistingNode(node, value)`: overwrite the value, then
update the frequency. -/
def updateExistingNode (s : State) (k : Nat) (nd : ArcNode) (v : Nat) : State :=
  updateNodeFrequency { s with mainCache_ := setEntry k { nd with value := v } s.mainCache_ } k

/-- Method `put(key, value)`. -/
def put (s : State) (k v : Nat) : Bool × State :=
  if s.capacity_ = 0 then (false, s)
  else
    match findEntry k s.mainCache_ with
    | some nd => (true, updateExistingNode s k nd v)
    | none => (true, addNewNode s k v)

/-- Method `bool get(key, value&)`: a hit updates the frequency and yields the
node's value (unchanged by the frequency update). -/
def get (s : State) (k : Nat) : Bool × Nat × State :=
  match findEntry k s.mainCache_ with
  | some nd =>
    let s1 := updateNodeFrequency s k
    (true, nd.value, s1)
  | none => (false, 0, s)

/-- Method `increasCapacity()` (source spelling). -/
def increasCapacity (s : State) : State :=
  { s with capacity_ := s.capacity_ + 1 }

/-- Method `decreaseCapacity()`: fails at capacity 0, otherwise evicts first
when the main cache is exactly full and then decrements. -/
def decreaseCapacity (s : State) : Bool × State :=
  if s.capacity_ = 0 then (false, s)
  else
    let s1 := if s.mainCache_.length = s.capacity_ then evictLeastFrequent s else s
    (true, { s1 with capacity_ := s1.capacity_ - 1 })

/-- A host-driven public operation of the LFU part, including the capacity
adaptation the ARC engine performs on ghost hits. -/
inductive Op where
  | put : Nat → Nat → Op
  | get : Nat → Op
  | decreaseCap : Op

/-- Execute one public operation. -/
def stepOp (s : State) : Op → State
  | Op.put k v => (put s k v).2
  | Op.get k => (get s k).2.2
  | Op.decreaseCap => (decreaseCapacity s).2

/-- Execute a sequence of public operations. -/
def runOps (s : State) (ops : List Op) : State := ops.foldl stepOp s

end ArcLfuPart

namespace ZPArcCache

/-- State of `ZPArcCache`: the two parts, each constructed with the full
configured capacity. -/
structure State where
  capacity_ : Nat
  transformThreshold_ : Nat
  lruPart_ : ArcLruPart.State
  lfuPart_ : ArcLfuPart.State
deriving DecidableEq, Repr

/-- Constructor `ZPArcCache(capacity, transformThreshold)`. -/
def init (capacity transformThreshold : Nat) : State :=
  { capacity_ := capacity
    transformThreshold_ := transformThreshold
    lruPart_ := ArcLruPart.init capacity transformThreshold
    lfuPart_ := ArcLfuPart.init capacity transformThreshold }

/-- Method `checkGhostCaches(key)`: a hit in one part's ghost shifts one unit
of capacity towards that part when the other part can give one up. The
source's `lfuPart_>increaseCapacity()` is a slip for
`lfuPart_->increaseCapacity()` (itself declared as `increasCapacity`); the
bool the method computes is discarded by both callers and the function can
flow off its end, so the model returns only the state. -/
def checkGhostCaches (s : State) (k : Nat) : State :=
  let r := ArcLruPart.checkGhost s.lruPart_ k
  if r.1 then
    let d := ArcLfuPart.decreaseCapacity s.lfuPart_
    let lru2 := if d.1 then ArcLruPart.increasCapacity r.2 else r.2
    { s with lruPart_ := lru2, lfuPart_ := d.2 }
  else
    let r2 := ArcLfuPart.checkGhost s.lfuPart_ k
    if r2.1 then
      let d := ArcLruPart.decreaseCapacity s.lruPart_
      let lfu2 := if d.1 then ArcLfuPart.increasCapacity r2.2 else r2.2
      { s with lruPart_ := d.2, lfuPart_ := lfu2 }
    else s

/-- Method `put(key, value)`: ghost check, then always write the LRU part, and
also the LFU part when the key was already present there. -/
def put (s : State) (k v : Nat) : State :=
  let s1 := checkGhostCaches s k
  let inLfu := ArcLfuPart.contain s1.lfuPart_ k
  let s2 := { s1 with lruPart_ := (ArcLruPart.put s1.lruPart_ k v).2 }
  if inLfu then { s2 with lfuPart_ := (ArcLfuPart.put s2.lfuPart_ k v).2 }
  else s2

/-- Method `bool get(key, vlaue&)`: ghost check, LRU lookup, promotion into
the LFU part when the transform threshold is reached, and then the LFU
lookup's result is returned. On an LRU miss the source flows off the end of
the function without returning: the first component is `none` there (the
out-parameter is also untouched; the model carries 0). On an LRU hit the
returned flag is the LFU part's hit flag, and the out-parameter holds the LFU
value on an LFU hit, else the LRU value. -/
def get (s : State) (k : Nat) : Option Bool × Nat × State :=
  let s1 := checkGhostCaches s k
  let r := ArcLruPart.get s1.lruPart_ k
  let s2 := { s1 with lruPart_ := r.2.2.2 }
  if r.1 then
    let v := r.2.1
    let s3 := if r.2.2.1 then { s2 with lfuPart_ := (ArcLfuPart.put s2.lfuPart_ k v).2 } else s2
    let r2 := ArcLfuPart.get s3.lfuPart_ k
    (some r2.1, if r2.1 then r2.2.1 else v, { s3 with lfuPart_ := r2.2.2 })
  else (none, 0, s2)

/-- Sum of the two parts' current main capacities. -/
def sumCaps (s : State) : Nat :=
  s.lruPart_.capacity_ + s.lfuPart_.capacity_

/-- A host-driven public operation of `ZPArcCache`. -/
inductive Op where
  | put : Nat → Nat → Op
  | get : Nat → Op

/-- Execute one public operation. -/
def stepOp (s : State) : Op → State
  | Op.put k v => put s k v
  | Op.get k => (get s k).2.2

/-- Execute a sequence of public operations. -/
def runOps (s : State) (ops : List Op) : State := ops.foldl stepOp s

end ZPArcCache

/-- Specification-side reference function (from the words of the spec, for
comparing against `ZPLfuCache.updateMinFreq`): the smallest frequency whose
bucket is non-empty, or `none` when every bucket is empty. -/
def smallestNonempty : List (Nat × List Nat) → Option Nat
  | [] => none
  | (f, b) :: rest =>
    let r := smallestNonempty rest
    if b = [] then r
    else
      match r with
      | none => some f
      | some m => some (min f m)

/-!
### Claim theorems

Each claim of the specification audit gets one theorem below (with a
counterexample and, where needed, a witness).
-/

/-- Claim C1 (code bug, spurious ARC miss): with capacity 3 and
`transformThreshold` 3, after `put(100, 7)` the key 100 is present in the
LRU part's main map, yet the ARC `get(100)` returns the LFU part's miss flag
(`some false`) while the out-parameter already holds the LRU value 7; the
claim's promised hit with the LRU stored value is not produced. -/
theorem claim1_arc_lru_hit_reported_as_miss :
    (ZPArcCache.get (ZPArcCache.put (ZPArcCache.init 3 3) 100 7) 100).1 = some false
      ∧ (ZPArcCache.get (ZPArcCache.put (ZPArcCache.init 3 3) 100 7) 100).2.1 = 7
      ∧ (findEntry 100 (ZPArcCache.put (ZPArcCache.init 3 3) 100 7).lruPart_.mainCache_).isSome
          = true := by
  decide

/-- Claim C2 counterexample: for an ARC engine configured with capacity 1,
already after a single `put` the two parts' capacities sum to 2, not to the
configured capacity 1 (each part is constructed with the full capacity). -/
theorem claim2_capacity_sum_not_engine_capacity :
    ¬ ZPArcCache.sumCaps (ZPArcCache.runOps (ZPArcCache.init 1 2) [ZPArcCache.Op.put 100 7])
        = 1 := by
  decide

/-- Claim C3 (code bug, `minFreq_` not minimal in the ARC LFU part): running
`put 1; put 2; put 3; get 1; get 1; get 2; decreaseCapacity` on an
`ArcLfuPart` of capacity 3 leaves `minFreq_ = 3` while the bucket at
frequency 2 still holds key 2 (the source resets `minFreq_` to
`freqMap_.begin()->first`, an arbitrary bucket); the next eviction (a `put` of
the fresh key 4) then removes key 1, whose frequency is 3, while key 2 of
frequency 2 stays — eviction does not pick a node of minimal frequency. -/
theorem claim3_arc_lfu_minfreq_invariant_broken :
    (ArcLfuPart.runOps (ArcLfuPart.init 3 2)
        [ArcLfuPart.Op.put 1 0, ArcLfuPart.Op.put 2 0, ArcLfuPart.Op.put 3 0,
         ArcLfuPart.Op.get 1, ArcLfuPart.Op.get 1, ArcLfuPart.Op.get 2,
         ArcLfuPart.Op.decreaseCap]).minFreq_ = 3
      ∧ findEntry 2 (ArcLfuPart.runOps (ArcLfuPart.init 3 2)
          [ArcLfuPart.Op.put 1 0, ArcLfuPart.Op.put 2 0, ArcLfuPart.Op.put 3 0,
           ArcLfuPart.Op.get 1, ArcLfuPart.Op.get 1, ArcLfuPart.Op.get 2,
           ArcLfuPart.Op.decreaseCap]).freqMap_ = some [2]
      ∧ findEntry 1 (ArcLfuPart.runOps (ArcLfuPart.init 3 2)
          [ArcLfuPart.Op.put 1 0, ArcLfuPart.Op.put 2 0, ArcLfuPart.Op.put 3 0,
           ArcLfuPart.Op.get 1, ArcLfuPart.Op.get 1, ArcLfuPart.Op.get 2,
           ArcLfuPart.Op.decreaseCap, ArcLfuPart.Op.put 4 0]).mainCache_ = none
      ∧ findEntry 2 (ArcLfuPart.runOps (ArcLfuPart.init 3 2)
          [ArcLfuPart.Op.put 1 0, ArcLfuPart.Op.put 2 0, ArcLfuPart.Op.put 3 0,
           ArcLfuPart.Op.get 1, ArcLfuPart.Op.get 1, ArcLfuPart.Op.get 2,
           ArcLfuPart.Op.decreaseCap, ArcLfuPart.Op.put 4 0]).mainCache_
          = some ⟨0, 2⟩ := by
  decide

/-- Claim C4 (code bug in the ARC half): the LFU engine honours
`put(5,7); get(5)` with a hit returning 7 at capacity 1, but the ARC engine
with capacity 1 and `transformThreshold` 3 answers `put(100,7); get(100)`
with the LFU part's miss flag (`some false`) although the key was just
written. -/
theorem claim4_put_get_roundtrip :
    (ZPLfuCache.get (ZPLfuCache.put (ZPLfuCache.init 1 10) 5 7) 5).1 = true
      ∧ (ZPLfuCache.get (ZPLfuCache.put (ZPLfuCache.init 1 10) 5 7) 5).2.1 = 7
      ∧ (ZPArcCache.get (ZPArcCache.put (ZPArcCache.init 1 3) 100 7) 100).1
          = some false := by
  decide

set_option maxRecDepth 100000 in
set_option maxHeartbeats 4000000 in
/-- Claim C6 counterexample: on an LFU engine of capacity 1 with
`maxAverageNum = 252`, a `put` followed by 252 `get`s of the same key ends in
an aging pass whose only non-empty bucket is at frequency 127, yet
`minFreq_` is recomputed to 1 (the fold over the sentinel `INT8_MAX` hides
smallest keys of 127 and above), not to the smallest non-empty bucket key. -/
theorem claim6_aging_minfreq_not_smallest :
    (fun s : ZPLfuCache.State =>
        (s.minFreq_, findEntry 127 s.freqToFreqList_,
         (s.freqToFreqList_.filter (fun p => p.2 ≠ [])).map Prod.fst,
         s.curAverageNum_, s.maxAverageNum_))
      (ZPLfuCache.run (ZPLfuCache.init 1 252)
        (ZPLfuCache.Op.put 100 0 :: List.replicate 252 (ZPLfuCache.Op.get 100)))
      = (1, some [100], [127], 253, 252) := by
  decide

/-- Claim C7 (code bug in the ARC half): at capacity 0 every write is a
state-preserving no-op for both engines and the LFU engine's `get` misses, but
the ARC engine's `bool get` has no `return` on its LRU-miss path, so
`put(100,7); get(100)` reaches the end of the function without producing the
claimed miss (the model reports `none` for the undefined return value). -/
theorem claim7_capacity_zero :
    ZPArcCache.put (ZPArcCache.init 0 2) 100 7 = ZPArcCache.init 0 2
      ∧ (ZPArcCache.get (ZPArcCache.init 0 2) 100).1 = none
      ∧ ZPLfuCache.put (ZPLfuCache.init 0 10) 100 7 = ZPLfuCache.init 0 10
      ∧ (ZPLfuCache.get (ZPLfuCache.init 0 10) 100).1 = false := by
  decide

/-- Claim C8 (code bug, ghost map exceeds its capacity): twelve put/get
operations on an `ArcLruPart` of capacity 3 (ghost capacity 3) drive the
ghost map to size 4. Re-inserting key 1 while it still sits in the ghost
leaves a stale duplicate node in the ghost list; `removeOldestGhost` later
erases the live map entry for that key through the stale node, and the next
`removeOldestGhost` erases nothing, letting `addToGhost` grow the map past
its bound. -/
theorem claim8_ghost_capacity_exceeded :
    (ArcLruPart.runOps (ArcLruPart.init 3 2)
        [ArcLruPart.Op.put 1 0, ArcLruPart.Op.put 2 0, ArcLruPart.Op.put 3 0,
         ArcLruPart.Op.put 4 0, ArcLruPart.Op.put 1 0, ArcLruPart.Op.get 4,
         ArcLruPart.Op.get 3, ArcLruPart.Op.put 5 0, ArcLruPart.Op.put 6 0,
         ArcLruPart.Op.put 7 0, ArcLruPart.Op.put 8 0,
         ArcLruPart.Op.put 9 0]).ghostCache_.length = 4
      ∧ (ArcLruPart.runOps (ArcLruPart.init 3 2)
          [ArcLruPart.Op.put 1 0, ArcLruPart.Op.put 2 0, ArcLruPart.Op.put 3 0,
           ArcLruPart.Op.put 4 0, ArcLruPart.Op.put 1 0, ArcLruPart.Op.get 4,
           ArcLruPart.Op.get 3, ArcLruPart.Op.put 5 0, ArcLruPart.Op.put 6 0,
           ArcLruPart.Op.put 7 0, ArcLruPart.Op.put 8 0,
           ArcLruPart.Op.put 9 0]).ghostCapacity_ = 3 := by
  decide

/-- Claim C9 counterexample: on an LFU engine of capacity 1, after
`put(1,5); get(1)` the frequency 1 is still a key of `freqToFreqList_` but
its bucket is empty — buckets are not destroyed when emptied. -/
theorem claim9_empty_bucket_persists :
    ¬ (∀ p ∈ (ZPLfuCache.run (ZPLfuCache.init 1 10)
        [ZPLfuCache.Op.put 1 5, ZPLfuCache.Op.get 1]).freqToFreqList_, p.2 ≠ []) := by
  decide

/-- Claim C10 (confirmed): `purge()` empties `nodeMap_` and
`freqToFreqList_` and changes nothing else — `minFreq_`, `curTotalNum_`,
`curAverageNum_`, the capacity and `maxAverageNum_` keep their pre-purge
values — and concretely, after `put(1,5); get(1); get(1)` on a capacity-2
engine with `maxAverageNum = 1` followed by `purge()`, the stale total 3
survives and the first subsequent `put` runs with an average of 4 above the
ceiling 1, i.e. it immediately triggers aging. -/
theorem claim10_purge_frame_and_stale_aging :
    (∀ s : ZPLfuCache.State,
        (ZPLfuCache.purge s).minFreq_ = s.minFreq_
          ∧ (ZPLfuCache.purge s).curTotalNum_ = s.curTotalNum_
          ∧ (ZPLfuCache.purge s).curAverageNum_ = s.curAverageNum_
          ∧ (ZPLfuCache.purge s).capacity_ = s.capacity_
          ∧ (ZPLfuCache.purge s).maxAverageNum_ = s.maxAverageNum_
          ∧ (ZPLfuCache.purge s).nodeMap_ = []
          ∧ (ZPLfuCache.purge s).freqToFreqList_ = [])
      ∧ (ZPLfuCache.purge (ZPLfuCache.run (ZPLfuCache.init 2 1)
          [ZPLfuCache.Op.put 1 5, ZPLfuCache.Op.get 1, ZPLfuCache.Op.get 1])).curTotalNum_ = 3
      ∧ (ZPLfuCache.put (ZPLfuCache.purge (ZPLfuCache.run (ZPLfuCache.init 2 1)
          [ZPLfuCache.Op.put 1 5, ZPLfuCache.Op.get 1, ZPLfuCache.Op.get 1])) 2 6).curAverageNum_
          > (ZPLfuCache.put (ZPLfuCache.purge (ZPLfuCache.run (ZPLfuCache.init 2 1)
          [ZPLfuCache.Op.put 1 5, ZPLfuCache.Op.get 1, ZPLfuCache.Op.get 1])) 2 6).maxAverageNum_
      ∧ (ZPLfuCache.put (ZPLfuCache.purge (ZPLfuCache.run (ZPLfuCache.init 2 1)
          [ZPLfuCache.Op.put 1 5, ZPLfuCache.Op.get 1, ZPLfuCache.Op.get 1])) 2 6).curTotalNum_
          = 4 := by
  refine ⟨fun s => ⟨rfl, rfl, rfl, rfl, rfl, rfl, rfl⟩, ?_, ?_, ?_⟩ <;> decide
/-!
### Capacity bookkeeping lemmas for the ARC engine (claim C2)
-/

theorem ArcLruPart.lruCapacity_removeOldestGhost (s : ArcLruPart.State) :
    (ArcLruPart.removeOldestGhost s).capacity_ = s.capacity_ := by
  unfold ArcLruPart.removeOldestGhost
  repeat' first
    | rfl
    | split

theorem ArcLruPart.capacity_evicitLeastRecent (s : ArcLruPart.State) :
    (ArcLruPart.evicitLeastRecent s).capacity_ = s.capacity_ := by
  unfold ArcLruPart.evicitLeastRecent ArcLruPart.removeOldestGhost
  repeat' first
    | rfl
    | split
    | (dsimp only; split)

theorem ArcLruPart.lruCapacity_put (s : ArcLruPart.State) (k v : Nat) :
    ((ArcLruPart.put s k v).2).capacity_ = s.capacity_ := by
  unfold ArcLruPart.put ArcLruPart.updateExistingNode ArcLruPart.addNewNode
  have he := ArcLruPart.capacity_evicitLeastRecent s
  repeat' first
    | rfl
    | exact he
    | split

theorem ArcLruPart.lruCapacity_get (s : ArcLruPart.State) (k : Nat) :
    ((ArcLruPart.get s k).2.2.2).capacity_ = s.capacity_ := by
  unfold ArcLruPart.get ArcLruPart.updateNodeAccess
  repeat' first
    | rfl
    | split

theorem ArcLruPart.lruCapacity_checkGhost (s : ArcLruPart.State) (k : Nat) :
    ((ArcLruPart.checkGhost s k).2).capacity_ = s.capacity_ := by
  unfold ArcLruPart.checkGhost
  repeat' first
    | rfl
    | split

theorem ArcLruPart.lruDecreaseCapacity_cases (s : ArcLruPart.State) :
    ((ArcLruPart.decreaseCapacity s).1 = true ∧ s.capacity_ ≠ 0
        ∧ ((ArcLruPart.decreaseCapacity s).2).capacity_ = s.capacity_ - 1)
      ∨ ((ArcLruPart.decreaseCapacity s).1 = false ∧ (ArcLruPart.decreaseCapacity s).2 = s) := by
  unfold ArcLruPart.decreaseCapacity
  split
  · right; exact ⟨rfl, rfl⟩
  · left
    refine ⟨rfl, by assumption, ?_⟩
    dsimp only
    split
    · exact congrArg (fun n => n - 1) (ArcLruPart.capacity_evicitLeastRecent s)
    · rfl

theorem ArcLfuPart.lfuCapacity_removeOldestGhost (s : ArcLfuPart.State) :
    (ArcLfuPart.removeOldestGhost s).capacity_ = s.capacity_ := by
  unfold ArcLfuPart.removeOldestGhost
  repeat' first
    | rfl
    | split

theorem ArcLfuPart.capacity_evictLeastFrequent (s : ArcLfuPart.State) :
    (ArcLfuPart.evictLeastFrequent s).capacity_ = s.capacity_ := by
  unfold ArcLfuPart.evictLeastFrequent ArcLfuPart.removeOldestGhost
  repeat' first
    | rfl
    | split
    | (dsimp only; split)

theorem ArcLfuPart.capacity_updateNodeFrequency (s : ArcLfuPart.State) (k : Nat) :
    (ArcLfuPart.updateNodeFrequency s k).capacity_ = s.capacity_ := by
  unfold ArcLfuPart.updateNodeFrequency
  repeat' first
    | rfl
    | split

theorem ArcLfuPart.lfuCapacity_put (s : ArcLfuPart.State) (k v : Nat) :
    ((ArcLfuPart.put s k v).2).capacity_ = s.capacity_ := by
  unfold ArcLfuPart.put ArcLfuPart.updateExistingNode ArcLfuPart.addNewNode
  have he := ArcLfuPart.capacity_evictLeastFrequent s
  have hu : ∀ x : ArcLfuPart.State, (ArcLfuPart.updateNodeFrequency x k).capacity_ = x.capacity_ :=
    fun x => ArcLfuPart.capacity_updateNodeFrequency x k
  repeat' first
    | rfl
    | exact he
    | exact hu _
    | split

theorem ArcLfuPart.lfuCapacity_get (s : ArcLfuPart.State) (k : Nat) :
    ((ArcLfuPart.get s k).2.2).capacity_ = s.capacity_ := by
  unfold ArcLfuPart.get
  repeat' first
    | rfl
    | exact ArcLfuPart.capacity_updateNodeFrequency s k
    | split

theorem ArcLfuPart.lfuCapacity_checkGhost (s : ArcLfuPart.State) (k : Nat) :
    ((ArcLfuPart.checkGhost s k).2).capacity_ = s.capacity_ := by
  unfold ArcLfuPart.checkGhost
  repeat' first
    | rfl
    | split

theorem ArcLfuPart.lfuDecreaseCapacity_cases (s : ArcLfuPart.State) :
    ((ArcLfuPart.decreaseCapacity s).1 = true ∧ s.capacity_ ≠ 0
        ∧ ((ArcLfuPart.decreaseCapacity s).2).capacity_ = s.capacity_ - 1)
      ∨ ((ArcLfuPart.decreaseCapacity s).1 = false ∧ (ArcLfuPart.decreaseCapacity s).2 = s) := by
  unfold ArcLfuPart.decreaseCapacity
  split
  · right; exact ⟨rfl, rfl⟩
  · left
    refine ⟨rfl, by assumption, ?_⟩
    dsimp only
    split
    · exact congrArg (fun n => n - 1) (ArcLfuPart.capacity_evictLeastFrequent s)
    · rfl

theorem ZPArcCache.sumCaps_checkGhostCaches (s : ZPArcCache.State) (k : Nat) :
    ZPArcCache.sumCaps (ZPArcCache.checkGhostCaches s k) = ZPArcCache.sumCaps s := by
  unfold ZPArcCache.checkGhostCaches ZPArcCache.sumCaps
  by_cases h1 : (ArcLruPart.checkGhost s.lruPart_ k).1 = true
  · rcases ArcLfuPart.lfuDecreaseCapacity_cases s.lfuPart_ with ⟨hd, h0, hc⟩ | ⟨hd, he⟩
    · simp [h1, hd, hc, ArcLfuPart.increasCapacity, ArcLruPart.increasCapacity,
        ArcLruPart.lruCapacity_checkGhost]
      omega
    · simp [h1, hd, he, ArcLfuPart.increasCapacity, ArcLruPart.increasCapacity,
        ArcLruPart.lruCapacity_checkGhost]
  · by_cases h2 : (ArcLfuPart.checkGhost s.lfuPart_ k).1 = true
    · rcases ArcLruPart.lruDecreaseCapacity_cases s.lruPart_ with ⟨hd, h0, hc⟩ | ⟨hd, he⟩
      · simp [h1, h2, hd, hc, ArcLfuPart.increasCapacity, ArcLruPart.increasCapacity,
          ArcLfuPart.lfuCapacity_checkGhost]
        omega
      · simp [h1, h2, hd, he, ArcLfuPart.increasCapacity, ArcLruPart.increasCapacity,
          ArcLfuPart.lfuCapacity_checkGhost]
    · simp [h1, h2]

theorem ZPArcCache.sumCaps_put (s : ZPArcCache.State) (k v : Nat) :
    ZPArcCache.sumCaps (ZPArcCache.put s k v) = ZPArcCache.sumCaps s := by
  have h := ZPArcCache.sumCaps_checkGhostCaches s k
  unfold ZPArcCache.sumCaps at h ⊢
  unfold ZPArcCache.put
  by_cases hc : ArcLfuPart.contain (ZPArcCache.checkGhostCaches s k).lfuPart_ k = true <;>
    simp [hc, ArcLruPart.lruCapacity_put, ArcLfuPart.lfuCapacity_put] <;>
    omega

theorem ZPArcCache.sumCaps_get (s : ZPArcCache.State) (k : Nat) :
    ZPArcCache.sumCaps ((ZPArcCache.get s k).2.2) = ZPArcCache.sumCaps s := by
  have h := ZPArcCache.sumCaps_checkGhostCaches s k
  unfold ZPArcCache.sumCaps at h ⊢
  unfold ZPArcCache.get
  by_cases h1 : (ArcLruPart.get (ZPArcCache.checkGhostCaches s k).lruPart_ k).1 = true <;>
    by_cases h2 : (ArcLruPart.get (ZPArcCache.checkGhostCaches s k).lruPart_ k).2.2.1 = true <;>
    simp [h1, h2, ArcLruPart.lruCapacity_get, ArcLfuPart.lfuCapacity_get, ArcLfuPart.lfuCapacity_put] <;>
    omega

theorem ZPArcCache.sumCaps_stepOp (s : ZPArcCache.State) (op : ZPArcCache.Op) :
    ZPArcCache.sumCaps (ZPArcCache.stepOp s op) = ZPArcCache.sumCaps s := by
  cases op with
  | put k v => exact ZPArcCache.sumCaps_put s k v
  | get k => exact ZPArcCache.sumCaps_get s k

theorem ZPArcCache.sumCaps_runOps (ops : List ZPArcCache.Op) :
    ∀ s : ZPArcCache.State, ZPArcCache.sumCaps (ZPArcCache.runOps s ops) = ZPArcCache.sumCaps s := by
  induction ops with
  | nil => intro s; rfl
  | cons op rest ih =>
    intro s
    have h1 : ZPArcCache.runOps s (op :: rest) = ZPArcCache.runOps (ZPArcCache.stepOp s op) rest :=
      rfl
    rw [h1, ih, ZPArcCache.sumCaps_stepOp]

/-- Claim C2 amended: across every sequence of `put` and `get` operations the
sum of the two parts' capacities is constant — each ghost-hit rebalance that
decreases one part's capacity increases the other's by exactly one — but that
constant equals twice the engine's configured capacity, since each part is
constructed with the full capacity. -/
theorem claim2_capacity_sum_constant_twice_capacity (c t : Nat) (ops : List ZPArcCache.Op) :
    ZPArcCache.sumCaps (ZPArcCache.runOps (ZPArcCache.init c t) ops) = 2 * c := by
  rw [ZPArcCache.sumCaps_runOps]
  show c + c = 2 * c
  omega

/-!
### Bucket-key monotonicity for the LFU engine (claim C9)
-/

theorem mapFst_setEntry {α : Type} (k : Nat) (v : α) (m : List (Nat × α)) :
    (setEntry k v m).map Prod.fst = m.map Prod.fst
      ∨ (setEntry k v m).map Prod.fst = m.map Prod.fst ++ [k] := by
  induction m with
  | nil => right; rfl
  | cons p rest ih =>
    rcases p with ⟨k1, v1⟩
    by_cases hk : k = k1
    · subst hk
      left
      simp [setEntry]
    · rcases ih with ih | ih
      · left
        simp [setEntry, hk, ih]
      · right
        simp [setEntry, hk, ih]

theorem mem_mapFst_setEntry {α : Type} (k f : Nat) (v : α) (m : List (Nat × α))
    (h : f ∈ m.map Prod.fst) : f ∈ (setEntry k v m).map Prod.fst := by
  rcases mapFst_setEntry k v m with he | he <;> rw [he]
  · exact h
  · exact List.mem_append_left _ h

theorem ZPLfuCache.bucketKeys_removeFromFreqList (s : ZPLfuCache.State) (k fr f : Nat)
    (h : f ∈ s.freqToFreqList_.map Prod.fst) :
    f ∈ (ZPLfuCache.removeFromFreqList s k fr).freqToFreqList_.map Prod.fst := by
  unfold ZPLfuCache.removeFromFreqList
  cases hf : findEntry fr s.freqToFreqList_ with
  | none => exact h
  | some b => exact mem_mapFst_setEntry fr f _ _ h

theorem ZPLfuCache.bucketKeys_addToFreqList (s : ZPLfuCache.State) (k fr f : Nat)
    (h : f ∈ s.freqToFreqList_.map Prod.fst) :
    f ∈ (ZPLfuCache.addToFreqList s k fr).freqToFreqList_.map Prod.fst := by
  unfold ZPLfuCache.addToFreqList
  cases hf : findEntry fr s.freqToFreqList_ with
  | none =>
    simp only [List.map_append]
    exact List.mem_append_left _ h
  | some b => exact mem_mapFst_setEntry fr f _ _ h

theorem ZPLfuCache.bucketKeys_agingStep (s : ZPLfuCache.State) (k f : Nat)
    (h : f ∈ s.freqToFreqList_.map Prod.fst) :
    f ∈ (ZPLfuCache.agingStep s k).freqToFreqList_.map Prod.fst := by
  unfold ZPLfuCache.agingStep
  cases hf : findEntry k s.nodeMap_ with
  | none => exact h
  | some nd =>
    exact ZPLfuCache.bucketKeys_addToFreqList _ k _ f
      (ZPLfuCache.bucketKeys_removeFromFreqList s k nd.freq f h)

theorem ZPLfuCache.bucketKeys_agingFold (ks : List Nat) :
    ∀ (s : ZPLfuCache.State) (f : Nat), f ∈ s.freqToFreqList_.map Prod.fst →
      f ∈ (ks.foldl ZPLfuCache.agingStep s).freqToFreqList_.map Prod.fst := by
  induction ks with
  | nil => intro s f h; exact h
  | cons k rest ih =>
    intro s f h
    exact ih _ f (ZPLfuCache.bucketKeys_agingStep s k f h)

theorem ZPLfuCache.bucketKeys_handleOver (s : ZPLfuCache.State) (f : Nat)
    (h : f ∈ s.freqToFreqList_.map Prod.fst) :
    f ∈ (ZPLfuCache.handleOverMaxAverageNum s).freqToFreqList_.map Prod.fst := by
  unfold ZPLfuCache.handleOverMaxAverageNum
  split
  · exact h
  · exact ZPLfuCache.bucketKeys_agingFold _ s f h

theorem ZPLfuCache.bucketKeys_addFreqNum (s : ZPLfuCache.State) (f : Nat)
    (h : f ∈ s.freqToFreqList_.map Prod.fst) :
    f ∈ (ZPLfuCache.addFreqNum s).freqToFreqList_.map Prod.fst := by
  unfold ZPLfuCache.addFreqNum
  by_cases hc : (if s.nodeMap_ = [] then 0 else (s.curTotalNum_ + 1) / s.nodeMap_.length)
      > s.maxAverageNum_
  · simp only [hc, if_true]
    exact ZPLfuCache.bucketKeys_handleOver _ f h
  · simp only [hc, if_false]
    exact h

theorem ZPLfuCache.bucketKeys_getInternal (s : ZPLfuCache.State) (k f : Nat)
    (h : f ∈ s.freqToFreqList_.map Prod.fst) :
    f ∈ ((ZPLfuCache.getInternal s k).2).freqToFreqList_.map Prod.fst := by
  unfold ZPLfuCache.getInternal
  cases hf : findEntry k s.nodeMap_ with
  | none => exact h
  | some nd =>
    dsimp only
    apply ZPLfuCache.bucketKeys_addFreqNum
    split
    · exact ZPLfuCache.bucketKeys_addToFreqList _ k _ f
        (ZPLfuCache.bucketKeys_removeFromFreqList s k nd.freq f h)
    · exact ZPLfuCache.bucketKeys_addToFreqList _ k _ f
        (ZPLfuCache.bucketKeys_removeFromFreqList s k nd.freq f h)

theorem ZPLfuCache.bucketKeys_kickOut (s : ZPLfuCache.State) (f : Nat)
    (h : f ∈ s.freqToFreqList_.map Prod.fst) :
    f ∈ (ZPLfuCache.kickOut s).freqToFreqList_.map Prod.fst := by
  unfold ZPLfuCache.kickOut
  cases hb : findEntry s.minFreq_ s.freqToFreqList_ with
  | none => exact h
  | some b =>
    cases b with
    | nil => exact h
    | cons hd tl =>
      dsimp only
      cases hn : findEntry hd s.nodeMap_ with
      | none => exact h
      | some nd => exact ZPLfuCache.bucketKeys_removeFromFreqList s hd nd.freq f h

theorem ZPLfuCache.bucketKeys_putInternal (s : ZPLfuCache.State) (k v f : Nat)
    (h : f ∈ s.freqToFreqList_.map Prod.fst) :
    f ∈ (ZPLfuCache.putInternal s k v).freqToFreqList_.map Prod.fst := by
  unfold ZPLfuCache.putInternal
  dsimp only
  apply ZPLfuCache.bucketKeys_addFreqNum
  apply ZPLfuCache.bucketKeys_addToFreqList
  split
  · exact ZPLfuCache.bucketKeys_kickOut s f h
  · exact h

/-- Claim C9 amended: frequency buckets of the LFU engine are created lazily
but are never destroyed when emptied — across any `put` or `get`, every
frequency already present as a key of `freqToFreqList_` is still present
afterwards (an emptied bucket stays, possibly empty, until `purge`). -/
theorem claim9_bucket_keys_never_destroyed (s : ZPLfuCache.State) (k v f : Nat) :
    (f ∈ s.freqToFreqList_.map Prod.fst →
        f ∈ (ZPLfuCache.put s k v).freqToFreqList_.map Prod.fst)
      ∧ (f ∈ s.freqToFreqList_.map Prod.fst →
        f ∈ ((ZPLfuCache.get s k).2.2).freqToFreqList_.map Prod.fst) := by
  constructor
  · intro h
    unfold ZPLfuCache.put
    split
    · exact h
    · cases hf : findEntry k s.nodeMap_ with
      | none => exact ZPLfuCache.bucketKeys_putInternal s k v f h
      | some nd => exact ZPLfuCache.bucketKeys_getInternal _ k f h
  · intro h
    unfold ZPLfuCache.get
    cases hf : findEntry k s.nodeMap_ with
    | none => exact h
    | some nd => exact ZPLfuCache.bucketKeys_getInternal s k f h

/-- Witness for claim C9's amended theorem: after `put(1,5)` on a fresh
capacity-1 engine the bucket key 1 exists, and both a further `put(1,6)` and a
`get(1)` keep it. -/
theorem claim9_bucket_keys_never_destroyed_witness :
    (1 ∈ (ZPLfuCache.put (ZPLfuCache.init 1 10) 1 5).freqToFreqList_.map Prod.fst)
      ∧ (1 ∈ (ZPLfuCache.put (ZPLfuCache.put (ZPLfuCache.init 1 10) 1 5) 1 6).freqToFreqList_.map
          Prod.fst)
      ∧ (1 ∈ ((ZPLfuCache.get (ZPLfuCache.put (ZPLfuCache.init 1 10) 1 5) 1).2.2).freqToFreqList_.map
          Prod.fst) :=
  ⟨by decide,
   (claim9_bucket_keys_never_destroyed (ZPLfuCache.put (ZPLfuCache.init 1 10) 1 5) 1 6 1).1
     (by decide),
   (claim9_bucket_keys_never_destroyed (ZPLfuCache.put (ZPLfuCache.init 1 10) 1 5) 1 1 1).2
     (by decide)⟩

/-!
### Eviction shape of the LFU engine (claim C5)
-/

theorem mapFst_setEntry_present {α : Type} (k : Nat) (v x : α) (m : List (Nat × α))
    (h : findEntry k m = some x) : (setEntry k v m).map Prod.fst = m.map Prod.fst := by
  induction m with
  | nil => simp [findEntry] at h
  | cons p rest ih =>
    rcases p with ⟨k1, v1⟩
    by_cases hk : k = k1
    · subst hk
      simp [setEntry]
    · simp only [findEntry, if_neg hk] at h
      simp [setEntry, hk, ih h]

theorem mapFst_eraseEntry {α : Type} (k : Nat) (m : List (Nat × α)) :
    (eraseEntry k m).map Prod.fst = removeFirst k (m.map Prod.fst) := by
  induction m with
  | nil => rfl
  | cons p rest ih =>
    rcases p with ⟨k1, v1⟩
    by_cases hk : k = k1
    · subst hk
      simp [eraseEntry, removeFirst]
    · simp [eraseEntry, removeFirst, hk, Ne.symm hk, ih]

theorem ZPLfuCache.nodeMap_removeFromFreqList (s : ZPLfuCache.State) (k f : Nat) :
    (ZPLfuCache.removeFromFreqList s k f).nodeMap_ = s.nodeMap_ := by
  unfold ZPLfuCache.removeFromFreqList
  cases findEntry f s.freqToFreqList_ <;> rfl

theorem ZPLfuCache.nodeMap_addToFreqList (s : ZPLfuCache.State) (k f : Nat) :
    (ZPLfuCache.addToFreqList s k f).nodeMap_ = s.nodeMap_ := by
  unfold ZPLfuCache.addToFreqList
  cases findEntry f s.freqToFreqList_ <;> rfl

theorem ZPLfuCache.mapFst_agingStep (s : ZPLfuCache.State) (k : Nat) :
    (ZPLfuCache.agingStep s k).nodeMap_.map Prod.fst = s.nodeMap_.map Prod.fst := by
  unfold ZPLfuCache.agingStep
  cases hf : findEntry k s.nodeMap_ with
  | none => rfl
  | some nd =>
    dsimp only
    rw [ZPLfuCache.nodeMap_addToFreqList]
    show (setEntry k _ (ZPLfuCache.removeFromFreqList s k nd.freq).nodeMap_).map Prod.fst
        = s.nodeMap_.map Prod.fst
    rw [ZPLfuCache.nodeMap_removeFromFreqList]
    exact mapFst_setEntry_present k _ nd _ hf

theorem ZPLfuCache.mapFst_agingFold (ks : List Nat) :
    ∀ s : ZPLfuCache.State,
      (ks.foldl ZPLfuCache.agingStep s).nodeMap_.map Prod.fst = s.nodeMap_.map Prod.fst := by
  induction ks with
  | nil => intro s; rfl
  | cons k rest ih =>
    intro s
    rw [List.foldl_cons, ih, ZPLfuCache.mapFst_agingStep]

theorem ZPLfuCache.mapFst_handleOver (s : ZPLfuCache.State) :
    (ZPLfuCache.handleOverMaxAverageNum s).nodeMap_.map Prod.fst
      = s.nodeMap_.map Prod.fst := by
  unfold ZPLfuCache.handleOverMaxAverageNum
  split
  · rfl
  · show ((s.nodeMap_.map Prod.fst).foldl ZPLfuCache.agingStep s).nodeMap_.map Prod.fst
        = s.nodeMap_.map Prod.fst
    exact ZPLfuCache.mapFst_agingFold _ s

theorem ZPLfuCache.mapFst_addFreqNum (s : ZPLfuCache.State) :
    (ZPLfuCache.addFreqNum s).nodeMap_.map Prod.fst = s.nodeMap_.map Prod.fst := by
  unfold ZPLfuCache.addFreqNum
  by_cases hc : (if s.nodeMap_ = [] then 0 else (s.curTotalNum_ + 1) / s.nodeMap_.length)
      > s.maxAverageNum_
  · simp only [hc, if_true]
    rw [ZPLfuCache.mapFst_handleOver]
  · simp only [hc, if_false]

theorem ZPLfuCache.nodeMap_kickOut_eq (s : ZPLfuCache.State) (h : Nat) (t : List Nat)
    (nd : ZPLfuCache.Node)
    (hbucket : findEntry s.minFreq_ s.freqToFreqList_ = some (h :: t))
    (hnode : findEntry h s.nodeMap_ = some nd) :
    (ZPLfuCache.kickOut s).nodeMap_ = eraseEntry h s.nodeMap_ := by
  unfold ZPLfuCache.kickOut
  rw [hbucket]
  dsimp only
  rw [hnode]
  dsimp only
  show (ZPLfuCache.decreaseFreqNum _ nd.freq).nodeMap_ = _
  rw [show ∀ (x : ZPLfuCache.State) (n : Nat),
        (ZPLfuCache.decreaseFreqNum x n).nodeMap_ = x.nodeMap_ from fun x n => rfl]
  show eraseEntry h (ZPLfuCache.removeFromFreqList s h nd.freq).nodeMap_ = _
  rw [ZPLfuCache.nodeMap_removeFromFreqList]

/-- Claim C5 (confirmed): when `put` inserts a new key into a full LFU engine
the evicted entry is exactly the head of the bucket at `minFreq_` — the
surviving key list is the old key list with that head removed plus the new
key appended — and concretely, with capacity 2,
`put(1,1); put(2,2); put(3,3)` evicts key 1 (the older arrival of the two
frequency-1 keys) leaving exactly the keys 2 and 3. -/
theorem claim5_lfu_evicts_head_of_min_bucket
    (s : ZPLfuCache.State) (k v h : Nat) (t : List Nat) (nd : ZPLfuCache.Node)
    (hcap : s.capacity_ ≠ 0)
    (hfull : s.nodeMap_.length = s.capacity_)
    (habs : findEntry k s.nodeMap_ = none)
    (hbucket : findEntry s.minFreq_ s.freqToFreqList_ = some (h :: t))
    (hnode : findEntry h s.nodeMap_ = some nd) :
    (ZPLfuCache.put s k v).nodeMap_.map Prod.fst
        = removeFirst h (s.nodeMap_.map Prod.fst) ++ [k]
      ∧ (ZPLfuCache.run (ZPLfuCache.init 2 10)
          [ZPLfuCache.Op.put 1 1, ZPLfuCache.Op.put 2 2,
           ZPLfuCache.Op.put 3 3]).nodeMap_.map Prod.fst = [2, 3] := by
  constructor
  · unfold ZPLfuCache.put
    rw [if_neg hcap, habs]
    dsimp only
    unfold ZPLfuCache.putInternal
    rw [if_pos hfull]
    dsimp only
    rw [ZPLfuCache.mapFst_addFreqNum, ZPLfuCache.nodeMap_addToFreqList]
    show ((ZPLfuCache.kickOut s).nodeMap_ ++ [(k, (⟨1, v⟩ : ZPLfuCache.Node))]).map Prod.fst
        = removeFirst h (s.nodeMap_.map Prod.fst) ++ [k]
    rw [ZPLfuCache.nodeMap_kickOut_eq s h t nd hbucket hnode]
    rw [List.map_append, mapFst_eraseEntry]
    rfl
  · decide

/-- Witness for claim C5: the engine state reached by `put(1,1); put(2,2)` at
capacity 2 satisfies every hypothesis of the eviction theorem (full map,
fresh key 3, minimum bucket headed by key 1), and the conclusion instantiates
to the keys `[2, 3]`. -/
theorem claim5_lfu_evicts_head_of_min_bucket_witness :
    (ZPLfuCache.put (ZPLfuCache.run (ZPLfuCache.init 2 10)
        [ZPLfuCache.Op.put 1 1, ZPLfuCache.Op.put 2 2]) 3 3).nodeMap_.map Prod.fst
      = removeFirst 1
          ((ZPLfuCache.run (ZPLfuCache.init 2 10)
            [ZPLfuCache.Op.put 1 1, ZPLfuCache.Op.put 2 2]).nodeMap_.map Prod.fst) ++ [3] :=
  (claim5_lfu_evicts_head_of_min_bucket
    (ZPLfuCache.run (ZPLfuCache.init 2 10) [ZPLfuCache.Op.put 1 1, ZPLfuCache.Op.put 2 2])
    3 3 1 [2] ⟨1, 1⟩ (by decide) (by decide) (by decide) (by decide) (by decide)).1

/-!
### The aging pass of the LFU engine (claim C6)
-/

theorem foldMin_eq_smallestNonempty (bs : List (Nat × List Nat)) (acc : Nat) :
    bs.foldl (fun a p => if p.2 ≠ [] then min a p.1 else a) acc
      = match smallestNonempty bs with
        | none => acc
        | some m => min acc m := by
  induction bs generalizing acc with
  | nil => rfl
  | cons p rest ih =>
    rcases p with ⟨f, b⟩
    by_cases hb : b = []
    · rw [List.foldl_cons]
      simp only [hb, ne_eq, not_true_eq_false, if_false, ite_self]
      rw [ih]
      simp [smallestNonempty, hb]
    · rw [List.foldl_cons]
      simp only [ne_eq, hb, not_false_eq_true, if_true, ite_true]
      rw [ih]
      cases hr : smallestNonempty rest with
      | none => simp [smallestNonempty, hb, hr]
      | some m => simp [smallestNonempty, hb, hr, Nat.min_assoc]

theorem ZPLfuCache.updateMinFreq_eq (s : ZPLfuCache.State) :
    (ZPLfuCache.updateMinFreq s).minFreq_
      = match smallestNonempty s.freqToFreqList_ with
        | none => 1
        | some m => if m < ZPLfuCache.int8Max then m else 1 := by
  unfold ZPLfuCache.updateMinFreq
  dsimp only
  rw [foldMin_eq_smallestNonempty]
  cases hr : smallestNonempty s.freqToFreqList_ with
  | none => simp
  | some m =>
    by_cases hm : m < ZPLfuCache.int8Max
    · have h1 : min ZPLfuCache.int8Max m = m := by
        unfold ZPLfuCache.int8Max at hm ⊢
        omega
      have h2 : m ≠ ZPLfuCache.int8Max := by
        unfold ZPLfuCache.int8Max at hm ⊢
        omega
      simp [h1, h2, hm]
    · have h1 : min ZPLfuCache.int8Max m = ZPLfuCache.int8Max := by
        unfold ZPLfuCache.int8Max at hm ⊢
        omega
      simp [h1, hm]

theorem findEntry_setEntry_self {α : Type} (k : Nat) (v : α) (m : List (Nat × α)) :
    findEntry k (setEntry k v m) = some v := by
  induction m with
  | nil => simp [setEntry, findEntry]
  | cons p rest ih =>
    rcases p with ⟨k1, v1⟩
    by_cases hk : k = k1
    · subst hk
      simp [setEntry, findEntry]
    · simp [setEntry, findEntry, hk, ih]

theorem findEntry_setEntry_ne {α : Type} (k k1 : Nat) (v : α) (m : List (Nat × α))
    (h : k ≠ k1) : findEntry k (setEntry k1 v m) = findEntry k m := by
  induction m with
  | nil => simp [setEntry, findEntry, h]
  | cons p rest ih =>
    rcases p with ⟨k2, v2⟩
    by_cases hk : k1 = k2
    · subst hk
      simp [setEntry, findEntry, h]
    · by_cases hk2 : k = k2
      · subst hk2
        simp [setEntry, findEntry, hk]
      · simp [setEntry, findEntry, hk, hk2, ih]

theorem findEntry_mem_mapFst {α : Type} (k : Nat) (v : α) (m : List (Nat × α))
    (h : findEntry k m = some v) : k ∈ m.map Prod.fst := by
  induction m with
  | nil => simp [findEntry] at h
  | cons p rest ih =>
    rcases p with ⟨k1, v1⟩
    by_cases hk : k = k1
    · subst hk
      simp
    · simp only [findEntry, if_neg hk] at h
      simp [ih h]

theorem ZPLfuCache.maxAvg_removeFromFreqList (s : ZPLfuCache.State) (k f : Nat) :
    (ZPLfuCache.removeFromFreqList s k f).maxAverageNum_ = s.maxAverageNum_ := by
  unfold ZPLfuCache.removeFromFreqList
  cases findEntry f s.freqToFreqList_ <;> rfl

theorem ZPLfuCache.maxAvg_addToFreqList (s : ZPLfuCache.State) (k f : Nat) :
    (ZPLfuCache.addToFreqList s k f).maxAverageNum_ = s.maxAverageNum_ := by
  unfold ZPLfuCache.addToFreqList
  cases findEntry f s.freqToFreqList_ <;> rfl

theorem ZPLfuCache.totalNum_removeFromFreqList (s : ZPLfuCache.State) (k f : Nat) :
    (ZPLfuCache.removeFromFreqList s k f).curTotalNum_ = s.curTotalNum_ := by
  unfold ZPLfuCache.removeFromFreqList
  cases findEntry f s.freqToFreqList_ <;> rfl

theorem ZPLfuCache.totalNum_addToFreqList (s : ZPLfuCache.State) (k f : Nat) :
    (ZPLfuCache.addToFreqList s k f).curTotalNum_ = s.curTotalNum_ := by
  unfold ZPLfuCache.addToFreqList
  cases findEntry f s.freqToFreqList_ <;> rfl

theorem ZPLfuCache.agingStep_maxAvg (s : ZPLfuCache.State) (k : Nat) :
    (ZPLfuCache.agingStep s k).maxAverageNum_ = s.maxAverageNum_ := by
  unfold ZPLfuCache.agingStep
  cases hf : findEntry k s.nodeMap_ with
  | none => rfl
  | some nd =>
    dsimp only
    rw [ZPLfuCache.maxAvg_addToFreqList]
    show (ZPLfuCache.removeFromFreqList s k nd.freq).maxAverageNum_ = s.maxAverageNum_
    rw [ZPLfuCache.maxAvg_removeFromFreqList]

theorem ZPLfuCache.agingStep_totalNum (s : ZPLfuCache.State) (k : Nat) :
    (ZPLfuCache.agingStep s k).curTotalNum_ = s.curTotalNum_ := by
  unfold ZPLfuCache.agingStep
  cases hf : findEntry k s.nodeMap_ with
  | none => rfl
  | some nd =>
    dsimp only
    rw [ZPLfuCache.totalNum_addToFreqList]
    show (ZPLfuCache.removeFromFreqList s k nd.freq).curTotalNum_ = s.curTotalNum_
    rw [ZPLfuCache.totalNum_removeFromFreqList]

theorem ZPLfuCache.agingStep_nodeMap_other (s : ZPLfuCache.State) (k0 k : Nat) (h : k ≠ k0) :
    findEntry k (ZPLfuCache.agingStep s k0).nodeMap_ = findEntry k s.nodeMap_ := by
  unfold ZPLfuCache.agingStep
  cases hf : findEntry k0 s.nodeMap_ with
  | none => rfl
  | some nd =>
    dsimp only
    rw [ZPLfuCache.nodeMap_addToFreqList]
    show findEntry k (setEntry k0 _ (ZPLfuCache.removeFromFreqList s k0 nd.freq).nodeMap_)
        = findEntry k s.nodeMap_
    rw [ZPLfuCache.nodeMap_removeFromFreqList]
    exact findEntry_setEntry_ne k k0 _ _ h

theorem ZPLfuCache.agingStep_nodeMap_self (s : ZPLfuCache.State) (k0 : Nat)
    (nd : ZPLfuCache.Node) (h : findEntry k0 s.nodeMap_ = some nd) :
    findEntry k0 (ZPLfuCache.agingStep s k0).nodeMap_
      = some ⟨max 1 (nd.freq - s.maxAverageNum_ / 2), nd.value⟩ := by
  unfold ZPLfuCache.agingStep
  rw [h]
  dsimp only
  rw [ZPLfuCache.nodeMap_addToFreqList]
  show findEntry k0 (setEntry k0 _ (ZPLfuCache.removeFromFreqList s k0 nd.freq).nodeMap_) = _
  rw [findEntry_setEntry_self]
  have harith : (if nd.freq - s.maxAverageNum_ / 2 < 1 then 1
      else nd.freq - s.maxAverageNum_ / 2) = max 1 (nd.freq - s.maxAverageNum_ / 2) := by
    by_cases hlt : nd.freq - s.maxAverageNum_ / 2 < 1
    · rw [if_pos hlt]
      omega
    · rw [if_neg hlt]
      omega
  rw [harith]

theorem ZPLfuCache.agingFold_maxAvg (ks : List Nat) :
    ∀ s : ZPLfuCache.State,
      (ks.foldl ZPLfuCache.agingStep s).maxAverageNum_ = s.maxAverageNum_ := by
  induction ks with
  | nil => intro s; rfl
  | cons k rest ih =>
    intro s
    rw [List.foldl_cons, ih, ZPLfuCache.agingStep_maxAvg]

theorem ZPLfuCache.agingFold_totalNum (ks : List Nat) :
    ∀ s : ZPLfuCache.State,
      (ks.foldl ZPLfuCache.agingStep s).curTotalNum_ = s.curTotalNum_ := by
  induction ks with
  | nil => intro s; rfl
  | cons k rest ih =>
    intro s
    rw [List.foldl_cons, ih, ZPLfuCache.agingStep_totalNum]

theorem ZPLfuCache.agingFold_untouched (ks : List Nat) :
    ∀ (s : ZPLfuCache.State) (k : Nat), k ∉ ks →
      findEntry k (ks.foldl ZPLfuCache.agingStep s).nodeMap_ = findEntry k s.nodeMap_ := by
  induction ks with
  | nil => intro s k _; rfl
  | cons k0 rest ih =>
    intro s k hk
    rw [List.foldl_cons, ih _ k (fun hmem => hk (List.mem_cons_of_mem _ hmem)),
      ZPLfuCache.agingStep_nodeMap_other s k0 k (fun he => hk (he ▸ List.mem_cons_self _ _))]

theorem ZPLfuCache.agingFold_entry (ks : List Nat) :
    ∀ (s : ZPLfuCache.State) (k : Nat) (nd : ZPLfuCache.Node), ks.Nodup → k ∈ ks →
      findEntry k s.nodeMap_ = some nd →
      findEntry k (ks.foldl ZPLfuCache.agingStep s).nodeMap_
        = some ⟨max 1 (nd.freq - s.maxAverageNum_ / 2), nd.value⟩ := by
  induction ks with
  | nil => intro s k nd _ hmem; cases hmem
  | cons k0 rest ih =>
    intro s k nd hnodup hmem hfind
    rw [List.foldl_cons]
    rcases List.mem_cons.mp hmem with he | hmem2
    · subst he
      rw [ZPLfuCache.agingFold_untouched rest _ k (List.Nodup.not_mem hnodup)]
      exact ZPLfuCache.agingStep_nodeMap_self s k nd hfind
    · have hk0 : k ≠ k0 := by
        intro he
        subst he
        exact (List.Nodup.not_mem hnodup) hmem2
      have hfind2 : findEntry k (ZPLfuCache.agingStep s k0).nodeMap_ = some nd := by
        rw [ZPLfuCache.agingStep_nodeMap_other s k0 k hk0]
        exact hfind
      have := ih (ZPLfuCache.agingStep s k0) k nd (List.Nodup.of_cons hnodup) hmem2 hfind2
      rw [ZPLfuCache.agingStep_maxAvg] at this
      exact this

/-- Claim C6 amended: when aging runs (the main map is non-empty; the caller
invokes it when the average exceeds the ceiling), every node's frequency
becomes `max 1 (freq - maxAverageNum / 2)` with its value untouched and
`curTotalNum_` is left unchanged, but `minFreq_` is recomputed as the
smallest non-empty bucket key only when that key is below 127 (`INT8_MAX`);
when all buckets are empty, or the smallest non-empty key is 127 or more,
`minFreq_` is set to 1 instead. -/
theorem claim6_aging_amended (s : ZPLfuCache.State) (k : Nat) (nd : ZPLfuCache.Node)
    (hne : s.nodeMap_ ≠ [])
    (hnodup : (s.nodeMap_.map Prod.fst).Nodup)
    (hk : findEntry k s.nodeMap_ = some nd) :
    findEntry k (ZPLfuCache.handleOverMaxAverageNum s).nodeMap_
        = some ⟨max 1 (nd.freq - s.maxAverageNum_ / 2), nd.value⟩
      ∧ (ZPLfuCache.handleOverMaxAverageNum s).curTotalNum_ = s.curTotalNum_
      ∧ (ZPLfuCache.handleOverMaxAverageNum s).minFreq_
          = match smallestNonempty (ZPLfuCache.handleOverMaxAverageNum s).freqToFreqList_ with
            | none => 1
            | some m => if m < ZPLfuCache.int8Max then m else 1 := by
  unfold ZPLfuCache.handleOverMaxAverageNum
  rw [if_neg hne]
  refine ⟨?_, ?_, ?_⟩
  · show findEntry k ((s.nodeMap_.map Prod.fst).foldl ZPLfuCache.agingStep s).nodeMap_ = _
    exact ZPLfuCache.agingFold_entry _ s k nd hnodup (findEntry_mem_mapFst k nd _ hk) hk
  · show ((s.nodeMap_.map Prod.fst).foldl ZPLfuCache.agingStep s).curTotalNum_ = _
    exact ZPLfuCache.agingFold_totalNum _ s
  · exact ZPLfuCache.updateMinFreq_eq _

/-- Witness for claim C6's amended theorem: the state reached by
`put(1,5); put(2,6)` on a capacity-2 engine with `maxAverageNum = 4` has a
non-empty map with distinct keys and holds key 1 with frequency 1; aging that
state keeps the frequency at `max 1 (1 - 2) = 1`, keeps `curTotalNum_ = 2`,
and recomputes `minFreq_` by the amended rule. -/
theorem claim6_aging_amended_witness :
    findEntry 1 (ZPLfuCache.handleOverMaxAverageNum (ZPLfuCache.run (ZPLfuCache.init 2 4)
        [ZPLfuCache.Op.put 1 5, ZPLfuCache.Op.put 2 6])).nodeMap_
        = some ⟨max 1 (1 - (ZPLfuCache.run (ZPLfuCache.init 2 4)
            [ZPLfuCache.Op.put 1 5, ZPLfuCache.Op.put 2 6]).maxAverageNum_ / 2), 5⟩
      ∧ (ZPLfuCache.handleOverMaxAverageNum (ZPLfuCache.run (ZPLfuCache.init 2 4)
          [ZPLfuCache.Op.put 1 5, ZPLfuCache.Op.put 2 6])).curTotalNum_
        = (ZPLfuCache.run (ZPLfuCache.init 2 4)
            [ZPLfuCache.Op.put 1 5, ZPLfuCache.Op.put 2 6]).curTotalNum_
      ∧ (ZPLfuCache.handleOverMaxAverageNum (ZPLfuCache.run (ZPLfuCache.init 2 4)
          [ZPLfuCache.Op.put 1 5, ZPLfuCache.Op.put 2 6])).minFreq_
          = match smallestNonempty (ZPLfuCache.handleOverMaxAverageNum
              (ZPLfuCache.run (ZPLfuCache.init 2 4)
                [ZPLfuCache.Op.put 1 5, ZPLfuCache.Op.put 2 6])).freqToFreqList_ with
            | none => 1
            | some m => if m < ZPLfuCache.int8Max then m else 1 :=
  claim6_aging_amended
    (ZPLfuCache.run (ZPLfuCache.init 2 4) [ZPLfuCache.Op.put 1 5, ZPLfuCache.Op.put 2 6])
    1 ⟨1, 5⟩ (by decide) (by decide) (by decide)
